import Mathlib

/-!
Shallow embedding of `src/blanket_system.py` (Blanket v6.4).

The program's interaction with the outside world (HTTP requests, the PIL
image decoder, `urllib.parse.urljoin`, `hashlib.md5`, `inspect.getsource`)
is modelled by an explicit environment `Env` of pure functions; the image
store directory and the JSON event-log file are modelled as explicit state
threaded through the operations.  Each Lean definition mirrors one Python
function of the source.
-/

namespace Blanket

/-- Byte strings are lists of byte values. -/
abbrev Bytes := List Nat

/-- Predicate `hasSublist needle hay`: `needle` occurs as a contiguous sublist of `hay`.
Mirrors Python's substring operator `needle in hay` on the character lists. -/
def hasSublist (needle : List Char) : List Char → Bool
  | [] => needle.isEmpty
  | c :: rest => needle.isPrefixOf (c :: rest) || hasSublist needle rest

/-- Python `needle in hay` for strings. -/
def strContains (hay needle : String) : Bool :=
  hasSublist needle.toList hay.toList

/-- Python `s.lower()`: per-character lowercasing (ASCII case folding is
all the source's content-type comparison relies on). -/
def strLower (s : String) : String :=
  String.mk (s.data.map Char.toLower)

/-- Auxiliary decimal accumulator for `pyInt`. -/
def parseNatFrom (acc : Nat) : List Char → Option Nat
  | [] => some acc
  | c :: rest => if c.isDigit then parseNatFrom (10 * acc + (c.toNat - 48)) rest else none

/-- Python `int(s)` on a decimal string: an optional sign followed by at
least one digit; anything else raises, modelled as `none`. -/
def pyInt (s : String) : Option Int :=
  match s.toList with
  | [] => none
  | '-' :: rest =>
    match rest with
    | [] => none
    | _ => (parseNatFrom 0 rest).map (fun n => -(n : Int))
  | '+' :: rest =>
    match rest with
    | [] => none
    | _ => (parseNatFrom 0 rest).map (fun n => (n : Int))
  | l => (parseNatFrom 0 l).map (fun n => (n : Int))

/-- The response headers of a `requests.head` call that returned.
`none` models an absent header (Python `r.headers.get` returns its default). -/
structure HeadHeaders where
  contentType : Option String
  contentLength : Option String
  deriving DecidableEq, Repr

/-- Python `OnlineImageChecker.validate`, applied to the outcome of the HEAD
request: `none` is a raised network exception, `some h` a response with
headers `h`.  Mirrors the source line by line: `Content-Type` defaults to
`""`, `Content-Length` defaults to `0`; `int(...)` of an unparsable header
value raises inside the `try`, so it yields `false` like any exception;
the content type must contain `"image"` after lowercasing, and the parsed
size must not exceed `15_000_000`. -/
def validate (outcome : Option HeadHeaders) : Bool :=
  match outcome with
  | none => false
  | some r =>
    let ctype := r.contentType.getD ""
    match pyInt (r.contentLength.getD "0") with
    | none => false
    | some size =>
      if !(strContains (strLower ctype) "image") then false
      else if size > 15000000 then false
      else true

/-- The `lines` field of `CodeIntrospection.explain`: either a source line
count or the string `"Dynamic"` when `inspect.getsource` raises. -/
inductive LinesInfo where
  | count (n : Nat)
  | dynamic
  deriving DecidableEq, Repr

/-- One `img` element found by `soup.find_all("img")`, in document order.
`src` is the element's `src` attribute (`none` when absent). -/
structure ImgTag where
  src : Option String
  deriving DecidableEq, Repr

/-- The outside world as seen by the program: every library call with
externally determined behaviour becomes a pure function here.
- `fetchPage url`: `requests.get(url).text` followed by BeautifulSoup
  parsing; `none` models a raised exception, `some imgs` the `img`
  elements in document order.
- `head url`: the HEAD request of the validator (`none` = exception).
- `fetchBody url`: `requests.get(url).content` (`none` = exception).
- `verifyOk data`: whether `Image.open(io.BytesIO(data)).verify()` succeeds.
- `openResizeOk data`: whether `Image.open(path).resize((64,64))` succeeds
  on a file holding `data`.
- `urljoin base rel`: `urllib.parse.urljoin`.
- `md5hex data`: `hashlib.md5(data).hexdigest()`.
- `introspect`: what `inspect.getsource` reports for `BlanketCore`. -/
structure Env where
  fetchPage : String → Option (List ImgTag)
  head : String → Option HeadHeaders
  fetchBody : String → Option Bytes
  verifyOk : Bytes → Bool
  openResizeOk : Bytes → Bool
  urljoin : String → String → String
  md5hex : Bytes → String
  introspect : LinesInfo

/-- The image store directory: a list of (filename, contents) pairs. -/
abbrev Store := List (String × Bytes)

/-- Writing a file: `open(path, "wb").write(data)` replaces any existing
file of that name. -/
def storeWrite (store : Store) (name : String) (data : Bytes) : Store :=
  (name, data) :: store.filter (fun p => p.1 ≠ name)

/-- The filename `clone` stores a payload under:
`hashlib.md5(data).hexdigest() + ".jpg"`. -/
def fname (env : Env) (data : Bytes) : String :=
  env.md5hex data ++ ".jpg"

/-- The summary string returned by `clone`: `f"Ingested {count} validated images."`. -/
def cloneSummary (count : Nat) : String :=
  "Ingested " ++ toString count ++ " validated images."

/-- The `for img in soup.find_all("img")` loop of `WebImageIngestor.clone`,
threading the accepted counter and the store.  Per-candidate behaviour:
skip an absent or empty (falsy) `src`; resolve it against the page URL;
skip when the validator rejects; fetch the body, verify it decodes, and
write it under its content hash — any exception in that `try` block skips
the candidate; `count` increments only on a completed write.  The loop
breaks as soon as `count >= limit`. -/
def cloneLoop (env : Env) (pageUrl : String) (limit : Nat) :
    List ImgTag → Nat → Store → Nat × Store
  | [], count, store => (count, store)
  | img :: rest, count, store =>
    if count ≥ limit then (count, store)
    else
      match img.src with
      | none => cloneLoop env pageUrl limit rest count store
      | some s =>
        if s.isEmpty then cloneLoop env pageUrl limit rest count store
        else
          let src := env.urljoin pageUrl s
          if !(validate (env.head src)) then cloneLoop env pageUrl limit rest count store
          else
            match env.fetchBody src with
            | none => cloneLoop env pageUrl limit rest count store
            | some data =>
              if !(env.verifyOk data) then cloneLoop env pageUrl limit rest count store
              else
                cloneLoop env pageUrl limit rest (count + 1)
                  (storeWrite store (fname env data) data)

/-- Python `WebImageIngestor.clone(url, limit)` (the source's default is
`limit=40`).  The initial page fetch is outside any `try`: its exception
propagates, modelled as `Except.error` carrying the untouched store.
Otherwise the loop runs and the count summary is returned. -/
def clone (env : Env) (store : Store) (url : String) (limit : Nat) :
    Except Store (String × Store) :=
  match env.fetchPage url with
  | none => Except.error store
  | some imgs =>
    let r := cloneLoop env url limit imgs 0 store
    Except.ok (cloneSummary r.1, r.2)

/-- Specification-side companion of `cloneLoop`: the list of payloads the
loop accepts and writes, in acceptance order. -/
def cloneWrites (env : Env) (pageUrl : String) (limit : Nat) :
    List ImgTag → Nat → List Bytes
  | [], _ => []
  | img :: rest, count =>
    if count ≥ limit then []
    else
      match img.src with
      | none => cloneWrites env pageUrl limit rest count
      | some s =>
        if s.isEmpty then cloneWrites env pageUrl limit rest count
        else
          let src := env.urljoin pageUrl s
          if !(validate (env.head src)) then cloneWrites env pageUrl limit rest count
          else
            match env.fetchBody src with
            | none => cloneWrites env pageUrl limit rest count
            | some data =>
              if !(env.verifyOk data) then cloneWrites env pageUrl limit rest count
              else data :: cloneWrites env pageUrl limit rest (count + 1)

/-- Replaying a list of accepted payloads against a store, each written
under its content-hash filename. -/
def applyWrites (env : Env) (store : Store) (ws : List Bytes) : Store :=
  ws.foldl (fun st d => storeWrite st (fname env d) d) store

/-- The `PatternEngine.extract` loop over `os.listdir(DATA_DIR)`: each file
is opened and resized inside a `try`; a success adds one to the total and a
failure is passed over. -/
def extract (env : Env) : Store → Nat
  | [] => 0
  | f :: rest => (if env.openResizeOk f.2 then 1 else 0) + extract env rest

/-- The dict returned by `SelfWhyEngine.analyze(action, intent, module)`.
The `action` argument is accepted and unused, as in the source. -/
structure WhyAnalysis where
  intent : String
  executor : String
  whyAction : String
  whyCode : String
  meta : String
  deriving DecidableEq, Repr

/-- Python `SelfWhyEngine.analyze`. -/
def analyze (_action intent module : String) : WhyAnalysis where
  intent := intent
  executor := module
  whyAction := "Action executed to satisfy \x27" ++ intent ++ "\x27."
  whyCode := "Modular separation prevents cascading failures."
  meta := "System prioritizes traceability over autonomy illusion."

/-- The dict returned by `CodeIntrospection.explain` (the `structure` field
of an analysis).  `lines` comes from `inspect.getsource`, runtime
reflection represented by the environment's `introspect` field. -/
structure StructureInfo where
  module : String
  lines : LinesInfo
  designReason : String
  deriving DecidableEq, Repr

/-- Python `CodeIntrospection.explain(self)` as called from `BlanketCore.execute`:
`obj.__class__.__name__` is `"BlanketCore"`. -/
def explain (env : Env) : StructureInfo where
  module := "BlanketCore"
  lines := env.introspect
  designReason := "Isolated responsibility for long-term safety."

/-- The `analysis` object built in `BlanketCore.execute`
(`structureDesc` renders the source's `structure` key, a Lean keyword). -/
structure Analysis where
  why : WhyAnalysis
  structureDesc : StructureInfo
  deriving DecidableEq, Repr

/-- One element of the `events` array of `consciousness.json`:
`{"time": ..., "perception": ..., "analysis": ...}`. -/
structure Event where
  time : Nat
  perception : String
  analysis : Analysis
  deriving DecidableEq, Repr

/-- The state of the memory file on disk: absent, unreadable (not valid
JSON), or a well-formed document with its events list. -/
inductive MemFile where
  | missing
  | invalid
  | doc (events : List Event)
  deriving DecidableEq, Repr

/-- Python `ConsciousMemory._read`: any exception while opening or JSON-parsing
the file (missing or corrupt) yields the empty document `{"events": []}`. -/
def memRead : MemFile → List Event
  | MemFile.doc evs => evs
  | MemFile.missing => []
  | MemFile.invalid => []

/-- Python `ConsciousMemory.record(perception, analysis)`: read the document,
append one event keyed by the wall-clock time, write the whole document
back. -/
def record (t : Nat) (perception : String) (analysis : Analysis)
    (mf : MemFile) : MemFile :=
  MemFile.doc (memRead mf ++ [⟨t, perception, analysis⟩])

/-- The mutable state `BlanketCore` acts on: the memory file and the image
store directory. -/
structure CoreState where
  memFile : MemFile
  store : Store
  deriving DecidableEq, Repr

/-- The `analysis` dict of `BlanketCore.execute`. -/
def mkAnalysis (env : Env) (result cmd module : String) : Analysis where
  why := analyze result cmd module
  structureDesc := explain env

/-- Python `BlanketCore.execute(cmd, payload)` at wall-clock time `t`.
Dispatch is a case-sensitive comparison against `"CLONE"` and `"LEARN"`;
anything else produces the fixed `"Unknown command"` result.  A `"CLONE"`
with `payload=None` raises inside `requests.get` (MissingSchema), and a
failing page fetch propagates out of `clone`; both are `Except.error`
carrying the state at the raise, which precedes the `memory.record` call.
Every completed branch builds the analysis object, records one event under
the command name, and returns the result string. -/
def execute (env : Env) (t : Nat) (st : CoreState) (cmd : String)
    (payload : Option String) : Except CoreState (String × CoreState) :=
  match
    (if cmd = "CLONE" then
      match payload with
      | none => Except.error st.store
      | some url =>
        (clone env st.store url 40).map (fun r => (r.1, "WebImageIngestor", r.2))
    else if cmd = "LEARN" then
      let count := extract env st.store
      Except.ok (toString count ++ " patterns internalized.", "PatternEngine", st.store)
    else
      Except.ok ("Unknown command", "Core", st.store)) with
  | Except.error store1 => Except.error { st with store := store1 }
  | Except.ok (result, module, store1) =>
    let analysis := mkAnalysis env result cmd module
    Except.ok (result, { memFile := record t cmd analysis st.memFile, store := store1 })

/-- Running a sequence of commands back to back, each given as
(wall-clock time, command, payload); `none` when some invocation raised. -/
def runCmds (env : Env) : List (Nat × String × Option String) → CoreState →
    Option CoreState
  | [], st => some st
  | c :: rest, st =>
    match execute env c.1 st c.2.1 c.2.2 with
    | Except.error _ => none
    | Except.ok r => runCmds env rest r.2

/-- A concrete world for exercising the definitions: one known page with
three `img` elements (two pointing at the same payload, one with no
`src`), every URL resolving to an image HEAD response and the same small
body, and a digest function injective on the payloads involved. -/
def demoEnv : Env where
  fetchPage := fun u =>
    if u = "http://page" then some [⟨some "a.jpg"⟩, ⟨none⟩, ⟨some "a.jpg"⟩] else none
  head := fun _ => some ⟨some "image/jpeg", some "100"⟩
  fetchBody := fun _ => some [1, 2, 3]
  verifyOk := fun _ => true
  openResizeOk := fun d => !d.isEmpty
  urljoin := fun _ s => s
  md5hex := fun d => toString d.length
  introspect := LinesInfo.dynamic

/-- C9: when reading the event-log file fails (missing file or invalid
JSON), the log behaves as empty: the read yields an empty events list
without raising, and the next `record` writes a fresh document holding
only the new entry, discarding the unreadable history. -/
theorem memRead_failure_resets (t : Nat) (c : String) (a : Analysis) :
    memRead MemFile.missing = [] ∧ memRead MemFile.invalid = [] ∧
    record t c a MemFile.missing = MemFile.doc [⟨t, c, a⟩] ∧
    record t c a MemFile.invalid = MemFile.doc [⟨t, c, a⟩] :=
  ⟨rfl, rfl, rfl, rfl⟩

/-- C8: a missing `Content-Length` header defaults to length 0, so an
image-typed response with no length header is admitted; and a raised
network exception during the HEAD request makes `validate` return false
rather than propagate. -/
theorem validate_default_length_and_exception :
    (∀ h : HeadHeaders, h.contentLength = none →
      strContains (strLower (h.contentType.getD "")) "image" = true →
      validate (some h) = true) ∧
    validate none = false := by
  refine ⟨fun h hlen hct => ?_, rfl⟩
  simp only [validate, hlen, Option.getD_none]
  have h0 : pyInt "0" = some 0 := by decide
  rw [h0]
  simp [hct]

/-- Closed instance of C8's theorem: a PNG response with no length header
is admitted. -/
theorem validate_default_length_witness :
    validate (some ⟨some "image/png", none⟩) = true :=
  validate_default_length_and_exception.1 ⟨some "image/png", none⟩ rfl (by decide)

/-- C2: on a HEAD response, `validate` is false whenever the content type
does not contain "image" (case-insensitively, via lowercasing), regardless
of size; false whenever the declared length parses to more than 15,000,000;
and true exactly when the type check passes and the declared length parses
to at most 15,000,000. -/
theorem validate_type_and_size (h : HeadHeaders) :
    (strContains (strLower (h.contentType.getD "")) "image" = false →
      validate (some h) = false) ∧
    (∀ n : Int, pyInt (h.contentLength.getD "0") = some n → 15000000 < n →
      validate (some h) = false) ∧
    (validate (some h) = true ↔
      strContains (strLower (h.contentType.getD "")) "image" = true ∧
      ∃ n : Int, pyInt (h.contentLength.getD "0") = some n ∧ n ≤ 15000000) := by
  simp only [validate]
  rcases hp : pyInt (h.contentLength.getD "0") with _ | n
  · simp
  · rcases hct : strContains (strLower (h.contentType.getD "")) "image" with _ | _
    · simp
    · by_cases hsz : n > 15000000
      · simp [hsz]
      · simp [hsz]
        omega

/-- Closed instance of C2's theorem: a non-image content type is rejected
even at size 1, and a 20-megabyte image is rejected despite its type. -/
theorem validate_type_and_size_witness :
    validate (some ⟨some "text/html", some "1"⟩) = false ∧
    validate (some ⟨some "image/jpeg", some "20000000"⟩) = false :=
  ⟨(validate_type_and_size ⟨some "text/html", some "1"⟩).1 (by decide),
   (validate_type_and_size ⟨some "image/jpeg", some "20000000"⟩).2.1 20000000
     (by decide) (by decide)⟩

theorem storeWrite_length_le (st : Store) (n : String) (d : Bytes) :
    (storeWrite st n d).length ≤ st.length + 1 := by
  have := List.length_filter_le (fun p => decide (p.1 ≠ n)) st
  simp only [storeWrite, List.length_cons]
  omega

theorem filter_ne_then_eq (st : Store) (n : String) :
    (st.filter (fun p => p.1 ≠ n)).filter (fun p => p.1 = n) = [] := by
  induction st with
  | nil => rfl
  | cons a t ih =>
    by_cases h : a.1 = n
    · rw [List.filter_cons, if_neg (by simp [h])]
      exact ih
    · rw [List.filter_cons, if_pos (by simp [h]), List.filter_cons, if_neg (by simp [h])]
      exact ih

theorem storeWrite_filter_self (st : Store) (n : String) (d : Bytes) :
    (storeWrite st n d).filter (fun p => p.1 = n) = [(n, d)] := by
  simp only [storeWrite]
  rw [List.filter_cons, if_pos (by simp), filter_ne_then_eq st n]

theorem filter_ne_comm (st : Store) (n m : String) (h : m ≠ n) :
    (st.filter (fun p => p.1 ≠ n)).filter (fun p => p.1 = m) =
      st.filter (fun p => p.1 = m) := by
  induction st with
  | nil => rfl
  | cons a t ih =>
    by_cases ha : a.1 = n
    · have ham : ¬(a.1 = m) := fun hh => h (hh ▸ ha)
      rw [List.filter_cons, if_neg (by simp [ha]), ih, List.filter_cons,
        if_neg (by simp [ham])]
    · rw [List.filter_cons, if_pos (by simp [ha]), List.filter_cons, ih,
        List.filter_cons]

theorem storeWrite_filter_ne (st : Store) (n : String) (d : Bytes) (m : String)
    (h : m ≠ n) :
    (storeWrite st n d).filter (fun p => p.1 = m) = st.filter (fun p => p.1 = m) := by
  have hnm : ¬(n = m) := fun hh => h hh.symm
  simp only [storeWrite]
  rw [List.filter_cons, if_neg (by simp [hnm])]
  exact filter_ne_comm st n m h

theorem applyWrites_cons (env : Env) (st : Store) (w : Bytes) (ws : List Bytes) :
    applyWrites env st (w :: ws) = applyWrites env (storeWrite st (fname env w) w) ws :=
  rfl

theorem applyWrites_append (env : Env) (st : Store) (ws1 ws2 : List Bytes) :
    applyWrites env st (ws1 ++ ws2) = applyWrites env (applyWrites env st ws1) ws2 := by
  simp [applyWrites, List.foldl_append]

theorem applyWrites_length_le (env : Env) :
    ∀ (ws : List Bytes) (st : Store),
    (applyWrites env st ws).length ≤ st.length + ws.length := by
  intro ws
  induction ws with
  | nil => intro st; simp [applyWrites]
  | cons w t ih =>
    intro st
    rw [applyWrites_cons]
    have h1 := ih (storeWrite st (fname env w) w)
    have h2 := storeWrite_length_le st (fname env w) w
    simp only [List.length_cons]
    omega

theorem applyWrites_keep (env : Env) (d : Bytes) (m : String) :
    ∀ (ws : List Bytes) (st : Store),
    (∀ w ∈ ws, fname env w = m → w = d) →
    st.filter (fun p => p.1 = m) = [(m, d)] →
    (applyWrites env st ws).filter (fun p => p.1 = m) = [(m, d)] := by
  intro ws
  induction ws with
  | nil => intro st _ hst; simpa [applyWrites] using hst
  | cons w t ih =>
    intro st hw hst
    rw [applyWrites_cons]
    by_cases hf : fname env w = m
    · have hwd : w = d := hw w (List.mem_cons_self w t) hf
      apply ih _ (fun x hx => hw x (List.mem_cons_of_mem w hx))
      rw [hf, hwd]
      exact storeWrite_filter_self st m d
    · apply ih _ (fun x hx => hw x (List.mem_cons_of_mem w hx))
      rw [storeWrite_filter_ne st (fname env w) w m (fun hh => hf hh.symm)]
      exact hst

theorem applyWrites_mem (env : Env) (d : Bytes) :
    ∀ (ws : List Bytes) (st : Store), d ∈ ws →
    (∀ w ∈ ws, fname env w = fname env d → w = d) →
    (applyWrites env st ws).filter (fun p => p.1 = fname env d) =
      [(fname env d, d)] := by
  intro ws
  induction ws with
  | nil => intro st hmem; exact absurd hmem (List.not_mem_nil d)
  | cons w t ih =>
    intro st hmem hw
    rw [applyWrites_cons]
    by_cases hwd : w = d
    · subst hwd
      apply applyWrites_keep env w (fname env w) t _
        (fun x hx => hw x (List.mem_cons_of_mem w hx))
      exact storeWrite_filter_self st (fname env w) w
    · have hmt : d ∈ t := by
        rcases List.mem_cons.mp hmem with h | h
        · exact absurd h.symm hwd
        · exact h
      exact ih _ hmt (fun x hx => hw x (List.mem_cons_of_mem w hx))

theorem cloneLoop_snd (env : Env) (u : String) (lim : Nat) :
    ∀ (imgs : List ImgTag) (c : Nat) (st : Store),
    (cloneLoop env u lim imgs c st).2 = applyWrites env st (cloneWrites env u lim imgs c) := by
  intro imgs
  induction imgs with
  | nil => intro c st; rfl
  | cons img rest ih =>
    intro c st
    by_cases hc : c ≥ lim
    · simp [cloneLoop, cloneWrites, hc, applyWrites]
    · rcases hs : img.src with _ | s
      · simp [cloneLoop, cloneWrites, hc, hs, ih]
      · by_cases he : s.isEmpty
        · simp [cloneLoop, cloneWrites, hc, hs, he, ih]
        · rcases hv : validate (env.head (env.urljoin u s)) with _ | _
          · simp [cloneLoop, cloneWrites, hc, hs, he, hv, ih]
          · rcases hb : env.fetchBody (env.urljoin u s) with _ | data
            · simp [cloneLoop, cloneWrites, hc, hs, he, hv, hb, ih]
            · rcases hd : env.verifyOk data with _ | _
              · simp [cloneLoop, cloneWrites, hc, hs, he, hv, hb, hd, ih]
              · simp [cloneLoop, cloneWrites, hc, hs, he, hv, hb, hd, ih,
                  applyWrites_cons]

theorem cloneLoop_fst (env : Env) (u : String) (lim : Nat) :
    ∀ (imgs : List ImgTag) (c : Nat) (st : Store),
    (cloneLoop env u lim imgs c st).1 = c + (cloneWrites env u lim imgs c).length := by
  intro imgs
  induction imgs with
  | nil => intro c st; simp [cloneLoop, cloneWrites]
  | cons img rest ih =>
    intro c st
    by_cases hc : c ≥ lim
    · simp [cloneLoop, cloneWrites, hc]
    · rcases hs : img.src with _ | s
      · simp [cloneLoop, cloneWrites, hc, hs, ih]
      · by_cases he : s.isEmpty
        · simp [cloneLoop, cloneWrites, hc, hs, he, ih]
        · rcases hv : validate (env.head (env.urljoin u s)) with _ | _
          · simp [cloneLoop, cloneWrites, hc, hs, he, hv, ih]
          · rcases hb : env.fetchBody (env.urljoin u s) with _ | data
            · simp [cloneLoop, cloneWrites, hc, hs, he, hv, hb, ih]
            · rcases hd : env.verifyOk data with _ | _
              · simp [cloneLoop, cloneWrites, hc, hs, he, hv, hb, hd, ih]
              · simp [cloneLoop, cloneWrites, hc, hs, he, hv, hb, hd, ih]
                omega

theorem cloneLoop_count_le (env : Env) (u : String) (lim : Nat) :
    ∀ (imgs : List ImgTag) (c : Nat) (st : Store), c ≤ lim →
    (cloneLoop env u lim imgs c st).1 ≤ lim := by
  intro imgs
  induction imgs with
  | nil => intro c st h; simpa [cloneLoop] using h
  | cons img rest ih =>
    intro c st h
    by_cases hc : c ≥ lim
    · simpa [cloneLoop, hc] using h
    · rcases hs : img.src with _ | s
      · simpa [cloneLoop, hc, hs] using ih c st h
      · by_cases he : s.isEmpty
        · simpa [cloneLoop, hc, hs, he] using ih c st h
        · rcases hv : validate (env.head (env.urljoin u s)) with _ | _
          · simpa [cloneLoop, hc, hs, he, hv] using ih c st h
          · rcases hb : env.fetchBody (env.urljoin u s) with _ | data
            · simpa [cloneLoop, hc, hs, he, hv, hb] using ih c st h
            · rcases hd : env.verifyOk data with _ | _
              · simpa [cloneLoop, hc, hs, he, hv, hb, hd] using ih c st h
              · simpa [cloneLoop, hc, hs, he, hv, hb, hd] using
                  ih (c + 1) (storeWrite st (fname env data) data) (by omega)

/-- C3: for every page and every limit, `clone` accepts at most `limit`
candidates: the count in the returned summary never exceeds `limit`, at
most `limit` payloads are written, and the store grows by at most `limit`
files, however many `img` elements the page lists. -/
theorem clone_respects_limit (env : Env) (st : Store) (url : String) (lim : Nat)
    (imgs : List ImgTag) (h : env.fetchPage url = some imgs) :
    ∃ c st2, clone env st url lim = Except.ok (cloneSummary c, st2) ∧
      c ≤ lim ∧ (cloneWrites env url lim imgs 0).length ≤ lim ∧
      st2.length ≤ st.length + lim := by
  have hle := cloneLoop_count_le env url lim imgs 0 st (Nat.zero_le lim)
  have hfst := cloneLoop_fst env url lim imgs 0 st
  have hsnd := cloneLoop_snd env url lim imgs 0 st
  refine ⟨(cloneLoop env url lim imgs 0 st).1, (cloneLoop env url lim imgs 0 st).2,
    by simp [clone, h], hle, by omega, ?_⟩
  rw [hsnd]
  have h1 := applyWrites_length_le env (cloneWrites env url lim imgs 0) st
  omega

/-- Closed instance of C3's theorem at limit 1 on a page with two valid
candidates. -/
theorem clone_respects_limit_witness :
    ∃ c st2, clone demoEnv [] "http://page" 1 = Except.ok (cloneSummary c, st2) ∧
      c ≤ 1 ∧ (cloneWrites demoEnv "http://page" 1
        [⟨some "a.jpg"⟩, ⟨none⟩, ⟨some "a.jpg"⟩] 0).length ≤ 1 ∧
      st2.length ≤ ([] : Store).length + 1 :=
  clone_respects_limit demoEnv [] "http://page" 1
    [⟨some "a.jpg"⟩, ⟨none⟩, ⟨some "a.jpg"⟩] (by decide)

/-- C4: `clone` raises exactly when the initial page fetch raises; once
the page fetch has succeeded it always returns a count summary, whatever
the individual candidates do (validation rejections, body-fetch errors
and decode failures are all skipped). -/
theorem clone_raises_only_on_page_fetch (env : Env) (st : Store) (url : String)
    (lim : Nat) :
    (env.fetchPage url = none → clone env st url lim = Except.error st) ∧
    (∀ imgs, env.fetchPage url = some imgs →
      ∃ c st2, clone env st url lim = Except.ok (cloneSummary c, st2)) := by
  constructor
  · intro h; simp [clone, h]
  · intro imgs h
    exact ⟨(cloneLoop env url lim imgs 0 st).1, (cloneLoop env url lim imgs 0 st).2,
      by simp [clone, h]⟩

/-- Closed instance of C4's theorem: the demo page fetch succeeds and
`clone` returns a summary; an unknown page makes it raise. -/
theorem clone_raises_only_on_page_fetch_witness :
    (∃ c st2, clone demoEnv [] "http://page" 40 = Except.ok (cloneSummary c, st2)) ∧
    clone demoEnv [] "http://nowhere" 40 = Except.error [] :=
  ⟨(clone_raises_only_on_page_fetch demoEnv [] "http://page" 40).2
      [⟨some "a.jpg"⟩, ⟨none⟩, ⟨some "a.jpg"⟩] (by decide),
   (clone_raises_only_on_page_fetch demoEnv [] "http://nowhere" 40).1 (by decide)⟩

theorem strAppend_right_cancel {a b c : String} (h : a ++ c = b ++ c) : a = b := by
  have hd : a.data ++ c.data = b.data ++ c.data := by
    have := congrArg String.data h
    simpa [String.data_append] using this
  exact String.ext (List.append_cancel_right hd)

/-- C1: across two ingestion runs (the same page or different pages), a
payload accepted in either run ends up as exactly one file in the store,
named by its digest plus `".jpg"`; byte-identical downloads collapse onto
that one file because the name is a pure function of the content.  The
digest-collision-freedom hypothesis restricts attention to payloads whose
digest is not shared by a different accepted payload. -/
theorem clone_content_addressed (env : Env) (st0 : Store) (url1 url2 : String)
    (lim1 lim2 : Nat) (imgs1 imgs2 : List ImgTag) (d : Bytes)
    (s1 s2 : String) (st1 st2 : Store)
    (h1 : env.fetchPage url1 = some imgs1) (h2 : env.fetchPage url2 = some imgs2)
    (r1 : clone env st0 url1 lim1 = Except.ok (s1, st1))
    (r2 : clone env st1 url2 lim2 = Except.ok (s2, st2))
    (hmem : d ∈ cloneWrites env url1 lim1 imgs1 0 ++ cloneWrites env url2 lim2 imgs2 0)
    (hnc : ∀ w ∈ cloneWrites env url1 lim1 imgs1 0 ++ cloneWrites env url2 lim2 imgs2 0,
      env.md5hex w = env.md5hex d → w = d) :
    st2.filter (fun p => p.1 = env.md5hex d ++ ".jpg") =
      [(env.md5hex d ++ ".jpg", d)] := by
  have e1 : st1 = applyWrites env st0 (cloneWrites env url1 lim1 imgs1 0) := by
    rw [← cloneLoop_snd]
    simp [clone, h1] at r1
    exact r1.2.symm
  have e2 : st2 = applyWrites env st1 (cloneWrites env url2 lim2 imgs2 0) := by
    rw [← cloneLoop_snd]
    simp [clone, h2] at r2
    exact r2.2.symm
  have e3 : st2 = applyWrites env st0
      (cloneWrites env url1 lim1 imgs1 0 ++ cloneWrites env url2 lim2 imgs2 0) := by
    rw [applyWrites_append, ← e1, ← e2]
  have hnc2 : ∀ w ∈ cloneWrites env url1 lim1 imgs1 0 ++ cloneWrites env url2 lim2 imgs2 0,
      fname env w = fname env d → w = d :=
    fun w hw hf => hnc w hw (strAppend_right_cancel hf)
  rw [e3]
  exact applyWrites_mem env d _ st0 hmem hnc2

/-- Closed instance of C1's theorem: the demo page carries the payload
twice; after two full runs the store holds exactly the one file
`"3.jpg"` with that payload. -/
theorem clone_content_addressed_witness :
    (([("3.jpg", [1, 2, 3])] : Store).filter (fun p => p.1 = demoEnv.md5hex [1, 2, 3] ++ ".jpg")) =
      [(demoEnv.md5hex [1, 2, 3] ++ ".jpg", [1, 2, 3])] :=
  clone_content_addressed demoEnv [] "http://page" "http://page" 40 40
    [⟨some "a.jpg"⟩, ⟨none⟩, ⟨some "a.jpg"⟩] [⟨some "a.jpg"⟩, ⟨none⟩, ⟨some "a.jpg"⟩]
    [1, 2, 3] (cloneSummary 2) (cloneSummary 2)
    [("3.jpg", [1, 2, 3])] [("3.jpg", [1, 2, 3])]
    (by decide) (by decide) (by rfl) (by rfl) (by decide) (by decide)

theorem execute_ok_memFile (env : Env) (t : Nat) (st : CoreState) (cmd : String)
    (payload : Option String) (r : String × CoreState)
    (h : execute env t st cmd payload = Except.ok r) :
    ∃ a : Analysis, r.2.memFile = MemFile.doc (memRead st.memFile ++ [⟨t, cmd, a⟩]) := by
  unfold execute at h
  split at h
  · exact absurd h (by simp)
  · simp only [Except.ok.injEq] at h
    subst h
    exact ⟨_, rfl⟩

theorem execute_clone_none_eq (env : Env) (t : Nat) (st : CoreState) :
    execute env t st "CLONE" none = Except.error st := by
  simp [execute]

theorem execute_clone_err (env : Env) (t : Nat) (st : CoreState) (url : String)
    (h : env.fetchPage url = none) :
    execute env t st "CLONE" (some url) = Except.error st := by
  simp [execute, clone, h, Except.map]

theorem execute_learn_eq (env : Env) (t : Nat) (st : CoreState)
    (payload : Option String) :
    execute env t st "LEARN" payload = Except.ok
      (toString (extract env st.store) ++ " patterns internalized.",
       ⟨record t "LEARN" (mkAnalysis env
          (toString (extract env st.store) ++ " patterns internalized.")
          "LEARN" "PatternEngine") st.memFile, st.store⟩) := by
  simp [execute]

theorem execute_clone_ok_eq (env : Env) (t : Nat) (st : CoreState) (url : String)
    (imgs : List ImgTag) (hf : env.fetchPage url = some imgs) :
    execute env t st "CLONE" (some url) = Except.ok
      (cloneSummary (cloneLoop env url 40 imgs 0 st.store).1,
       ⟨record t "CLONE" (mkAnalysis env
          (cloneSummary (cloneLoop env url 40 imgs 0 st.store).1)
          "CLONE" "WebImageIngestor") st.memFile,
        (cloneLoop env url 40 imgs 0 st.store).2⟩) := by
  simp [execute, clone, hf, Except.map]

theorem strWithTail_ne (pre tail s : String)
    (h : s.length < pre.length + tail.length) : pre ++ tail ≠ s := by
  intro heq
  have := congrArg String.length heq
  simp only [String.length_append] at this
  omega

theorem runCmds_log_general (env : Env) :
    ∀ (cmds : List (Nat × String × Option String)) (st stN : CoreState)
      (evs : List Event),
    st.memFile = MemFile.doc evs → runCmds env cmds st = some stN →
    ∃ evs2 : List Event, stN.memFile = MemFile.doc (evs ++ evs2) ∧
      evs2.map Event.perception = cmds.map (fun c => c.2.1) := by
  intro cmds
  induction cmds with
  | nil =>
    intro st stN evs h1 h2
    simp only [runCmds, Option.some.injEq] at h2
    subst h2
    exact ⟨[], by simpa using h1, rfl⟩
  | cons c rest ih =>
    intro st stN evs h1 h2
    simp only [runCmds] at h2
    rcases hx : execute env c.1 st c.2.1 c.2.2 with e | r
    · rw [hx] at h2
      simp at h2
    · rw [hx] at h2
      obtain ⟨a, ha⟩ := execute_ok_memFile env c.1 st c.2.1 c.2.2 r hx
      rw [h1] at ha
      simp only [memRead] at ha
      obtain ⟨evs2, he1, he2⟩ := ih r.2 stN (evs ++ [⟨c.1, c.2.1, a⟩]) ha h2
      refine ⟨⟨c.1, c.2.1, a⟩ :: evs2, ?_, ?_⟩
      · rw [he1]
        simp
      · simp [he2]

/-- C6: starting from an empty log, after any number of sequential
successfully completed command invocations the log holds exactly one
event per invocation, carrying the command names in invocation order. -/
theorem runCmds_log_length_order (env : Env)
    (cmds : List (Nat × String × Option String)) (st stN : CoreState)
    (h1 : st.memFile = MemFile.doc []) (h2 : runCmds env cmds st = some stN) :
    ∃ evs : List Event, stN.memFile = MemFile.doc evs ∧
      evs.map Event.perception = cmds.map (fun c => c.2.1) ∧
      evs.length = cmds.length := by
  obtain ⟨evs2, he1, he2⟩ := runCmds_log_general env cmds st stN [] h1 h2
  refine ⟨evs2, by simpa using he1, he2, ?_⟩
  have := congrArg List.length he2
  simpa using this

/-- Closed instance of C6's theorem: a `LEARN` then an unknown command,
run from an empty log, leave exactly two events in order. -/
theorem runCmds_log_length_order_witness :
    ∃ evs : List Event,
      MemFile.doc [⟨0, "LEARN", mkAnalysis demoEnv "0 patterns internalized." "LEARN" "PatternEngine"⟩,
        ⟨1, "FOO", mkAnalysis demoEnv "Unknown command" "FOO" "Core"⟩] = MemFile.doc evs ∧
      evs.map Event.perception =
        ([(0, "LEARN", none), (1, "FOO", none)] : List (Nat × String × Option String)).map
          (fun c => c.2.1) ∧
      evs.length = ([(0, "LEARN", none), (1, "FOO", none)] : List (Nat × String × Option String)).length := by
  have h := runCmds_log_length_order demoEnv [(0, "LEARN", none), (1, "FOO", none)]
    ⟨MemFile.doc [], []⟩
    ⟨MemFile.doc [⟨0, "LEARN", mkAnalysis demoEnv "0 patterns internalized." "LEARN" "PatternEngine"⟩,
      ⟨1, "FOO", mkAnalysis demoEnv "Unknown command" "FOO" "Core"⟩], []⟩
    rfl (by rfl)
  exact h

/-- C5 as amended: the dispatcher recognizes exactly the two command names
`"CLONE"` and `"LEARN"`; any other command string yields the fixed
`"Unknown command"` result while still appending exactly one event record
carrying that command name; the two recognized commands never produce the
`"Unknown command"` result. -/
theorem execute_dispatch (env : Env) (t : Nat) (st : CoreState) (cmd : String)
    (payload : Option String) :
    (cmd ≠ "CLONE" → cmd ≠ "LEARN" →
      execute env t st cmd payload = Except.ok ("Unknown command",
        { memFile := MemFile.doc (memRead st.memFile ++
            [⟨t, cmd, mkAnalysis env "Unknown command" cmd "Core"⟩]),
          store := st.store })) ∧
    (∀ r, execute env t st "LEARN" payload = Except.ok r → r.1 ≠ "Unknown command") ∧
    (∀ r, execute env t st "CLONE" payload = Except.ok r → r.1 ≠ "Unknown command") := by
  refine ⟨fun h1 h2 => ?_, fun r h => ?_, fun r h => ?_⟩
  · simp [execute, h1, h2, record]
  · rw [execute_learn_eq] at h
    have hA := Except.ok.inj h
    rw [← hA]
    have h23 : (" patterns internalized." : String).length = 23 := rfl
    have h15 : ("Unknown command" : String).length = 15 := rfl
    exact strWithTail_ne _ _ _ (by omega)
  · rcases payload with _ | url
    · rw [execute_clone_none_eq] at h
      exact absurd h (by simp)
    · rcases hf : env.fetchPage url with _ | imgs
      · rw [execute_clone_err env t st url hf] at h
        exact absurd h (by simp)
      · rw [execute_clone_ok_eq env t st url imgs hf] at h
        have hA := Except.ok.inj h
        rw [← hA]
        have h18 : (" validated images." : String).length = 18 := rfl
        have h15 : ("Unknown command" : String).length = 15 := rfl
        show cloneSummary (cloneLoop env url 40 imgs 0 st.store).1 ≠ "Unknown command"
        unfold cloneSummary
        rw [String.append_assoc]
        exact strWithTail_ne _ _ _ (by
          have h9 : ("Ingested " : String).length = 9 := rfl
          have := String.length_append
            (toString (cloneLoop env url 40 imgs 0 st.store).1) " validated images."
          omega)

/-- Closed instance of C5's amended theorem: the unrecognized command
`"FOO"` yields the fixed result and appends one event naming `"FOO"`. -/
theorem execute_dispatch_witness :
    execute demoEnv 5 ⟨MemFile.doc [], []⟩ "FOO" none = Except.ok ("Unknown command",
      { memFile := MemFile.doc [⟨5, "FOO", mkAnalysis demoEnv "Unknown command" "FOO" "Core"⟩],
        store := [] }) :=
  (execute_dispatch demoEnv 5 ⟨MemFile.doc [], []⟩ "FOO" none).1
    (by decide) (by decide)

/-- Refutation of C5 as stated: `"LEARN"` is neither of the claimed
command names `"ingest"` and `"learn"`, yet `execute` does not return the
`"Unknown command"` result for it — the recognized names are `"CLONE"`
and `"LEARN"`, not `"ingest"` and `"learn"`. -/
theorem execute_command_names_refuted :
    ("LEARN" : String) ≠ "ingest" ∧ ("LEARN" : String) ≠ "learn" ∧
    ∃ st2, execute demoEnv 0 ⟨MemFile.doc [], []⟩ "LEARN" none =
      Except.ok ("0 patterns internalized.", st2) ∧
      ("0 patterns internalized." : String) ≠ "Unknown command" :=
  ⟨by decide, by decide,
    ⟨⟨MemFile.doc [⟨0, "LEARN",
        mkAnalysis demoEnv "0 patterns internalized." "LEARN" "PatternEngine"⟩], []⟩,
      rfl, by decide⟩⟩

/-- C7: `extract` returns the number of stored files that decode and
resize successfully; a failing file is skipped without affecting the count
of the others or aborting the scan; and `execute "LEARN"` on an empty
store returns the summary reporting 0 patterns internalized and appends
exactly one event record. -/
theorem extract_counts_and_learn_empty (env : Env) (store : Store) :
    extract env store = (store.filter (fun f => env.openResizeOk f.2)).length ∧
    (∀ (pre post : Store) (bad : String × Bytes), env.openResizeOk bad.2 = false →
      extract env (pre ++ bad :: post) = extract env (pre ++ post)) ∧
    (∀ (t : Nat) (mf : MemFile) (payload : Option String),
      execute env t ⟨mf, []⟩ "LEARN" payload =
        Except.ok ("0 patterns internalized.",
          ⟨MemFile.doc (memRead mf ++ [⟨t, "LEARN",
            mkAnalysis env "0 patterns internalized." "LEARN" "PatternEngine"⟩]), []⟩)) := by
  refine ⟨?_, ?_, ?_⟩
  · induction store with
    | nil => rfl
    | cons f rest ih =>
      rcases hf : env.openResizeOk f.2 with _ | _
      · simp [extract, List.filter_cons, hf, ih]
      · simp [extract, List.filter_cons, hf, ih, Nat.add_comm]
  · intro pre post bad hbad
    induction pre with
    | nil => simp [extract, hbad]
    | cons f rest ih => simp [extract, ih]
  · intro t mf payload
    have hs : toString (0 : Nat) ++ " patterns internalized." =
        "0 patterns internalized." := rfl
    simp [execute_learn_eq, extract, record, hs]

/-- Closed instance of C7's theorem on a store with one good and one
undecodable file. -/
theorem extract_counts_witness :
    extract demoEnv [("3.jpg", [1, 2, 3]), ("bad.jpg", [])] =
      (([("3.jpg", [1, 2, 3]), ("bad.jpg", [])] : Store).filter
        (fun f => demoEnv.openResizeOk f.2)).length ∧
    extract demoEnv ([("3.jpg", [1, 2, 3])] ++ ("bad.jpg", ([] : Bytes)) :: []) =
      extract demoEnv ([("3.jpg", [1, 2, 3])] ++ []) ∧
    execute demoEnv 7 ⟨MemFile.missing, []⟩ "LEARN" none =
      Except.ok ("0 patterns internalized.",
        ⟨MemFile.doc (memRead MemFile.missing ++ [⟨7, "LEARN",
          mkAnalysis demoEnv "0 patterns internalized." "LEARN" "PatternEngine"⟩]), []⟩) :=
  ⟨(extract_counts_and_learn_empty demoEnv [("3.jpg", [1, 2, 3]), ("bad.jpg", [])]).1,
   (extract_counts_and_learn_empty demoEnv []).2.1 [("3.jpg", [1, 2, 3])] []
     ("bad.jpg", []) (by decide),
   (extract_counts_and_learn_empty demoEnv []).2.2 7 MemFile.missing none⟩

/-- C10: when the initial page fetch of a `CLONE` command raises (also
when the payload is absent, making `requests.get` raise on `None`), the
exception propagates out of `execute` and the state — event log included —
is exactly what it was before the call: no event record is appended. -/
theorem execute_clone_fetch_atomic (env : Env) (t : Nat) (st : CoreState)
    (url : String) (h : env.fetchPage url = none) :
    execute env t st "CLONE" (some url) = Except.error st ∧
    execute env t st "CLONE" none = Except.error st :=
  ⟨execute_clone_err env t st url h, execute_clone_none_eq env t st⟩

/-- Closed instance of C10's theorem: a failing page leaves a non-empty
log and store untouched. -/
theorem execute_clone_fetch_atomic_witness :
    execute demoEnv 3 ⟨MemFile.doc [⟨0, "X", mkAnalysis demoEnv "r" "X" "Core"⟩],
        [("3.jpg", [1, 2, 3])]⟩ "CLONE" (some "http://nowhere") =
      Except.error ⟨MemFile.doc [⟨0, "X", mkAnalysis demoEnv "r" "X" "Core"⟩],
        [("3.jpg", [1, 2, 3])]⟩ :=
  (execute_clone_fetch_atomic demoEnv 3
    ⟨MemFile.doc [⟨0, "X", mkAnalysis demoEnv "r" "X" "Core"⟩], [("3.jpg", [1, 2, 3])]⟩
    "http://nowhere" (by decide)).1

end Blanket
